import Mathlib

/-!
# Verification of the autonomous planning plugin

A shallow embedding of the goal store, time-window resolver and injection
pipeline of the `autonomous_planning_plugin` repository, together with
theorems settling the specification claims.

Conventions of the embedding:
 * Python `datetime` values are modelled as `Int` timestamps (seconds since an
   arbitrary epoch); one day is `86400` seconds.  `datetime.isoformat` /
   `datetime.fromisoformat` form an exact round trip on `datetime` values, so
   serialization of a timestamp is modelled as the identity.
 * Minute-of-day quantities and time-window entries are `Int` (Python ints).
 * Python dicts keeping insertion order are modelled as association lists;
   `d[k] = v` is `dict_insert` (replace in place if the key exists, else append)
   and `del d[k]` is `dict_delete`.
 * `uuid.uuid4()` is modelled as a monotone counter (`Store.next_uuid`): each
   generated id is a fresh opaque token, so ids are `Nat` keys and the
   store invariant "generated ids are fresh" becomes an explicit hypothesis.
 * Exceptions are modelled with `Except Unit`; a Python `try/except Exception`
   is a `match` on the `Except` value.
-/

/-- Embeds `GoalStatus` (src/planner/goal_manager.py, lines 25-31). -/
inductive GoalStatus
  | active
  | paused
  | completed
  | cancelled
  | failed
deriving DecidableEq

/-- `GoalStatus.value`: the lowercase string stored in JSON. -/
def GoalStatus.value : GoalStatus → String
  | .active => "active"
  | .paused => "paused"
  | .completed => "completed"
  | .cancelled => "cancelled"
  | .failed => "failed"

/-- Embeds the `GoalStatus(...)` enum constructor: returns the member for a
valid value string and fails (Python `ValueError`) otherwise. -/
def GoalStatus.parse : String → Option GoalStatus
  | "active" => some .active
  | "paused" => some .paused
  | "completed" => some .completed
  | "cancelled" => some .cancelled
  | "failed" => some .failed
  | _ => none

/-- Embeds `GoalPriority` (src/planner/goal_manager.py, lines 34-38). -/
inductive GoalPriority
  | high
  | medium
  | low
deriving DecidableEq

/-- `GoalPriority.value`: the lowercase string stored in JSON. -/
def GoalPriority.value : GoalPriority → String
  | .high => "high"
  | .medium => "medium"
  | .low => "low"

/-- Embeds the `GoalPriority(...)` enum constructor. -/
def GoalPriority.parse : String → Option GoalPriority
  | "high" => some .high
  | "medium" => some .medium
  | "low" => some .low
  | _ => none

/-- A string-keyed map whose values are integer lists: the fragment of the
free-form `conditions` / `parameters` dicts that the claims touch (the only
key the code reads from them is `"time_window"`, an integer pair). -/
abbrev ParamMap := List (String × List Int)

/-- Embeds the `Goal` class attributes (src/planner/goal_manager.py,
lines 41-78).  `created_at` is total because `Goal.__init__` coerces
`created_at or datetime.now()`, so a constructed goal never carries `None`. -/
structure Goal where
  goal_id : String
  name : String
  description : String
  goal_type : String
  priority : GoalPriority
  creator_id : String
  chat_id : String
  status : GoalStatus
  created_at : Int
  deadline : Option Int
  interval_seconds : Option Int
  conditions : ParamMap
  parameters : ParamMap
  progress : Int
  last_executed_at : Option Int
  execution_count : Int
deriving DecidableEq

/-- Embeds `Goal.__init__` (src/planner/goal_manager.py, lines 44-78):
`created_at or datetime.now()` defaults a missing creation time to `now`, and
`conditions or {}` / `parameters or {}` default missing (or empty) maps to the
empty map (an empty dict is falsy, and `{} or {}` is `{}`, so `getD` agrees
with Python `or` on every input). -/
def Goal.make (goal_id name description goal_type : String)
    (priority : GoalPriority) (creator_id chat_id : String)
    (status : GoalStatus) (created_at : Option Int) (deadline : Option Int)
    (interval_seconds : Option Int) (conditions parameters : Option ParamMap)
    (progress : Int) (last_executed_at : Option Int) (execution_count : Int)
    (now : Int) : Goal :=
  { goal_id := goal_id
    name := name
    description := description
    goal_type := goal_type
    priority := priority
    creator_id := creator_id
    chat_id := chat_id
    status := status
    created_at := created_at.getD now
    deadline := deadline
    interval_seconds := interval_seconds
    conditions := conditions.getD []
    parameters := parameters.getD []
    progress := progress
    last_executed_at := last_executed_at
    execution_count := execution_count }

section TimeWindow

/-- Embeds `migrate_time_window` (src/utils/time_utils.py, lines 8-31):
`None` on fewer than two elements; `[start*60, end*60]` when `start < 24` and
`end <= 24` (the legacy hours encoding); otherwise the pair unchanged. -/
def migrate_time_window (time_window : List Int) : Option (List Int) :=
  if time_window.length < 2 then none
  else
    let start := time_window.getD 0 0
    let stop := time_window.getD 1 0
    if start < 24 ∧ stop ≤ 24 then some [start * 60, stop * 60]
    else some time_window

/-- Embeds `parse_time_window` (src/utils/time_utils.py, lines 34-47):
`(None, None)` when migration yields nothing (a migrated window always has at
least two elements, so it is never falsy when present). -/
def parse_time_window (time_window : List Int) : Option Int × Option Int :=
  match migrate_time_window time_window with
  | none => (none, none)
  | some migrated => (some (migrated.getD 0 0), some (migrated.getD 1 0))

/-- Embeds the window-membership test of
`ScheduleInjectEventHandler._get_current_schedule`
(src/handlers/handlers.py, lines 970-979): an end past 1440 denotes an
overnight window evaluated as `start <= now < 1440 or 0 <= now < end - 1440`. -/
def is_in_window (start_minutes end_minutes now : Int) : Bool :=
  if end_minutes > 1440 then
    (decide (start_minutes ≤ now) && decide (now < 1440)) ||
      (decide (0 ≤ now) && decide (now < end_minutes - 1440))
  else
    decide (start_minutes ≤ now) && decide (now < end_minutes)

end TimeWindow

/-- Python dict assignment `d[k] = v` on an insertion-ordered dict: replace the
value in place when the key is present, otherwise append a new binding. -/
def dict_insert [BEq κ] (gs : List (κ × α)) (k : κ) (v : α) : List (κ × α) :=
  if gs.any (fun p => p.1 == k) then
    gs.map (fun p => if p.1 == k then (k, v) else p)
  else gs ++ [(k, v)]

/-- Python `del d[k]`: drop the binding for `k`. -/
def dict_delete [BEq κ] (gs : List (κ × α)) (k : κ) : List (κ × α) :=
  gs.filter (fun p => ! (p.1 == k))

/-- Python `d.get(k)`: the value bound to `k`, when present. -/
def dict_lookup [BEq κ] (gs : List (κ × α)) (k : κ) : Option α :=
  (gs.find? (fun p => p.1 == k)).map (fun p => p.2)

/-- The goal map `GoalManager.goals`.  Keys are the generated goal ids,
modelled as the `Nat` draw of the uuid counter (see `Store.next_uuid`). -/
abbrev GoalMap := List (Nat × Goal)

/-- The mutable state of `GoalManager` (src/planner/goal_manager.py,
lines 195-215): the in-memory goal map, the uuid supply (modelled as a
monotone counter) and the last content flushed to `goals.json`
(`persisted`).  The delayed one-second flush timer is asynchronous and is
not part of the sequential model; `persisted` changes only where the code
performs a synchronous save (`_force_save` / `_save_goals`). -/
structure Store where
  goals : GoalMap
  next_uuid : Nat
  persisted : GoalMap
deriving DecidableEq

/-- One element of the `goals_data` argument of `create_goals_batch`: the
keyword arguments of `create_goal` (src/planner/goal_manager.py,
lines 366-379).  `priority` is the raw string, parsed by the
`GoalPriority(priority)` enum call inside `create_goal`. -/
structure GoalData where
  name : String
  description : String
  goal_type : String
  creator_id : String
  chat_id : String
  priority : String
  deadline : Option Int
  interval_seconds : Option Int
  conditions : Option ParamMap
  parameters : Option ParamMap
deriving DecidableEq

/-- Embeds `GoalManager.create_goal` (src/planner/goal_manager.py,
lines 366-406).  `GoalPriority(priority)` raises `ValueError` on an invalid
priority string before anything is inserted, which is the function's failure
point; on success the new goal is inserted under a fresh uuid.  The returned
`Nat` is the key of the inserted entry (Python reads it back as
`goal.goal_id`; the key and the id are the same draw of the uuid supply).
The `auto_save` delayed flush does not change the modelled state. -/
def create_goal (st : Store) (d : GoalData) (now : Int) :
    Except Unit (Store × Nat × Goal) :=
  match GoalPriority.parse d.priority with
  | none => .error ()
  | some prio =>
    let gid := st.next_uuid
    let goal := Goal.make (toString gid) d.name d.description d.goal_type prio
      d.creator_id d.chat_id .active none d.deadline d.interval_seconds
      d.conditions d.parameters 0 none 0 now
    .ok ({ st with goals := dict_insert st.goals gid goal,
                   next_uuid := st.next_uuid + 1 }, gid, goal)

/-- The loop of `GoalManager.create_goals_batch` (src/planner/goal_manager.py,
lines 424-437): create each goal with `auto_save=False`, accumulating the
created goals and their ids; stop at the first failure and report it. -/
def batch_go (now : Int) (st : Store) (created_ids : List Nat)
    (created : List Goal) : List GoalData → Store × List Nat × Except Unit (List Goal)
  | [] => (st, created_ids, .ok created)
  | d :: rest =>
    match create_goal st d now with
    | .error e => (st, created_ids, .error e)
    | .ok (st1, gid, g) => batch_go now st1 (created_ids ++ [gid]) (created ++ [g]) rest

/-- Embeds `GoalManager.create_goals_batch` (src/planner/goal_manager.py,
lines 408-451).  On success a forced immediate save persists the whole map;
on failure the rollback deletes every created id from the map
(`for goal_id in created_goal_ids: if goal_id in self.goals: del ...`) and
the exception is re-raised; no save happens on the failure path. -/
def create_goals_batch (st : Store) (goals_data : List GoalData) (now : Int) :
    Store × Except Unit (List Goal) :=
  match batch_go now st [] [] goals_data with
  | (st1, _, .ok created) =>
      ({ st1 with persisted := st1.goals }, .ok created)
  | (st1, ids, .error e) =>
      ({ st1 with goals := ids.foldl (fun gs i => dict_delete gs i) st1.goals }, .error e)

/-- The retention condition of `GoalManager.cleanup_old_goals`
(src/planner/goal_manager.py, lines 547-552): status completed or cancelled,
and created strictly before `now - days` (one day is 86400 seconds).  The
`goal.created_at and` truthiness guard is vacuous because a constructed goal
always carries a creation time (`created_at or datetime.now()`), and a
`datetime` is always truthy. -/
def cleanup_eligible (now : Int) (days : Int) (g : Goal) : Bool :=
  ((g.status == GoalStatus.completed) || (g.status == GoalStatus.cancelled)) &&
    decide (g.created_at < now - days * 86400)

/-- Embeds `GoalManager.cleanup_old_goals` (src/planner/goal_manager.py,
lines 533-562): collect the ids of eligible goals, delete them, save when
anything was deleted, and return the number deleted. -/
def cleanup_old_goals (st : Store) (now : Int) (days : Int) : Store × Nat :=
  let to_delete :=
    (st.goals.filter (fun p => cleanup_eligible now days p.2)).map (fun p => p.1)
  let goals1 := to_delete.foldl (fun gs i => dict_delete gs i) st.goals
  ({ st with goals := goals1,
             persisted := if to_delete.isEmpty then st.persisted else goals1 },
    to_delete.length)

/-- A single keyword argument of `GoalManager.update_goal` (one `setattr`):
the typed set of field changes the callers use.  A keyword naming no
attribute is skipped by the `hasattr` guard and is not modelled. -/
inductive FieldChange
  | set_status (s : GoalStatus)
  | set_progress (p : Int)
  | set_name (n : String)
  | set_description (d : String)
  | set_priority (p : GoalPriority)
  | set_deadline (d : Option Int)
  | set_interval_seconds (i : Option Int)
  | set_last_executed_at (t : Option Int)
  | set_execution_count (c : Int)
deriving DecidableEq

/-- One `setattr(goal, key, value)` of `GoalManager.update_goal`. -/
def apply_change (g : Goal) : FieldChange → Goal
  | .set_status s => { g with status := s }
  | .set_progress p => { g with progress := p }
  | .set_name n => { g with name := n }
  | .set_description d => { g with description := d }
  | .set_priority p => { g with priority := p }
  | .set_deadline d => { g with deadline := d }
  | .set_interval_seconds i => { g with interval_seconds := i }
  | .set_last_executed_at t => { g with last_executed_at := t }
  | .set_execution_count c => { g with execution_count := c }

/-- Embeds `GoalManager.update_goal` (src/planner/goal_manager.py,
lines 478-496): `False` when the id is absent, otherwise apply every field
change to the stored goal (in keyword order) and report `True`. -/
def update_goal (st : Store) (goal_id : Nat) (changes : List FieldChange) :
    Store × Bool :=
  if st.goals.any (fun p => p.1 == goal_id) then
    ({ st with goals := st.goals.map (fun p =>
        if p.1 == goal_id then (p.1, changes.foldl apply_change p.2) else p) }, true)
  else (st, false)

/-- Embeds `GoalManager.update_goal_status` (line 498-500). -/
def update_goal_status (st : Store) (goal_id : Nat) (s : GoalStatus) : Store × Bool :=
  update_goal st goal_id [.set_status s]

/-- Embeds `GoalManager.update_goal_progress` (lines 502-505): the progress
value is clamped into `[0, 100]` before the update. -/
def update_goal_progress (st : Store) (goal_id : Nat) (progress : Int) : Store × Bool :=
  update_goal st goal_id [.set_progress (max 0 (min 100 progress))]

/-- Embeds `GoalManager.complete_goal` (lines 507-509). -/
def complete_goal (st : Store) (goal_id : Nat) : Store × Bool :=
  update_goal st goal_id [.set_status .completed, .set_progress 100]

/-- Embeds `GoalManager.delete_goal` (lines 523-531). -/
def delete_goal (st : Store) (goal_id : Nat) : Store × Bool :=
  if st.goals.any (fun p => p.1 == goal_id) then
    ({ st with goals := dict_delete st.goals goal_id }, true)
  else (st, false)

/-- Embeds the dual-location `time_window` lookup used by the handlers
(src/handlers/handlers.py, lines 921-926): `parameters` takes precedence when
it contains the key; otherwise `conditions.get("time_window")` is consulted,
but only when `conditions` is non-empty (its truthiness guard). -/
def goal_time_window (g : Goal) : Option (List Int) :=
  if g.parameters.any (fun p => p.1 == "time_window") then
    dict_lookup g.parameters "time_window"
  else if ! g.conditions.isEmpty then
    dict_lookup g.conditions "time_window"
  else none

/-- Modelled from the spec: `GoalManager.cleanup_expired_schedules` is invoked
by the maintenance loop (src/handlers/handlers.py, line 95) but its definition
is not among the provided sources.  Per spec §4.1: it "removes ACTIVE goals
that represent past calendar-day schedule entries (created before today)"; a
schedule entry is a goal carrying a `time_window` (spec glossary / §3).
`today_start` is the timestamp of today's midnight. -/
def expired_schedule (today_start : Int) (g : Goal) : Bool :=
  (g.status == GoalStatus.active) && (goal_time_window g).isSome &&
    decide (g.created_at < today_start)

/-- Modelled from the spec: the removal pass of
`GoalManager.cleanup_expired_schedules`, returning the count of goals
removed (spec §4.1 contract: `cleanup_expired_schedules() -> count_removed`). -/
def cleanup_expired_schedules (st : Store) (today_start : Int) : Store × Nat :=
  let to_delete :=
    (st.goals.filter (fun p => expired_schedule today_start p.2)).map (fun p => p.1)
  let goals1 := to_delete.foldl (fun gs i => dict_delete gs i) st.goals
  ({ st with goals := goals1,
             persisted := if to_delete.isEmpty then st.persisted else goals1 },
    to_delete.length)

/-- Embeds `AutonomousPlannerEventHandler._cleanup_old_goals`
(src/handlers/handlers.py, lines 91-103): the background maintenance step
first invokes `cleanup_expired_schedules` on the goal manager, then
`cleanup_old_goals` with the configured retention days; it reports both
counts. -/
def maintenance_cleanup (st : Store) (today_start now : Int) (cleanup_days : Int) :
    Store × Nat × Nat :=
  let r1 := cleanup_expired_schedules st today_start
  let r2 := cleanup_old_goals r1.1 now cleanup_days
  (r2.1, r1.2, r2.2)

/-- The JSON record written by `Goal.to_dict` / read by `Goal.from_dict`
(src/planner/goal_manager.py, lines 80-126).  Keys read with `data[...]` are
required fields; keys read with `data.get(...)` are optional.  ISO-8601
serialization of a timestamp is modelled as the identity (Python's
`datetime.fromisoformat(d.isoformat()) == d`). -/
structure GoalDict where
  goal_id : String
  name : String
  description : String
  goal_type : String
  priority : String
  creator_id : String
  chat_id : String
  status : Option String
  created_at : Option Int
  deadline : Option Int
  interval_seconds : Option Int
  conditions : Option ParamMap
  parameters : Option ParamMap
  progress : Option Int
  last_executed_at : Option Int
  execution_count : Option Int
deriving DecidableEq

/-- Embeds `Goal.to_dict` (src/planner/goal_manager.py, lines 80-99). -/
def Goal.to_dict (g : Goal) : GoalDict :=
  { goal_id := g.goal_id
    name := g.name
    description := g.description
    goal_type := g.goal_type
    priority := g.priority.value
    creator_id := g.creator_id
    chat_id := g.chat_id
    status := some g.status.value
    created_at := some g.created_at
    deadline := g.deadline
    interval_seconds := g.interval_seconds
    conditions := some g.conditions
    parameters := some g.parameters
    progress := some g.progress
    last_executed_at := g.last_executed_at
    execution_count := some g.execution_count }

/-- Embeds `Goal.from_dict` (src/planner/goal_manager.py, lines 101-126):
parse the optional timestamps, default a missing status to `"active"`,
progress to 0, execution count to 0, and hand everything to the constructor
(whose enum coercions fail on invalid priority/status strings). -/
def Goal.from_dict (d : GoalDict) (now : Int) : Option Goal :=
  match GoalPriority.parse d.priority, GoalStatus.parse (d.status.getD "active") with
  | some prio, some status =>
      some (Goal.make d.goal_id d.name d.description d.goal_type prio
        d.creator_id d.chat_id status d.created_at d.deadline
        d.interval_seconds d.conditions d.parameters (d.progress.getD 0)
        d.last_executed_at (d.execution_count.getD 0) now)
  | _, _ => none

/-- Embeds `UserIntent` (src/handlers/inject/intent_classifier.py,
lines 25-32). -/
inductive UserIntent
  | query_current
  | query_future
  | casual_chat
  | tech_question
  | command_execution
  | unknown
deriving DecidableEq

/-- The `.value` string of each intent member. -/
def UserIntent.value : UserIntent → String
  | .query_current => "query_current"
  | .query_future => "query_future"
  | .casual_chat => "casual_chat"
  | .tech_question => "tech_question"
  | .command_execution => "command"
  | .unknown => "unknown"

/-- One record of `InjectOptimizer.inject_history`
(src/handlers/inject/inject_optimizer.py, lines 44-46 and 166-180). -/
structure InjectRecord where
  last_time : Int
  last_activity : String
  last_content : String
  last_intent : String
  count : Nat
deriving DecidableEq

/-- The state of `InjectOptimizer` (src/handlers/inject/inject_optimizer.py,
lines 33-49).  Wall-clock seconds are `Int`; probabilities and confidences
are `ℚ`. -/
structure InjectOptimizer where
  inject_history : List (String × InjectRecord)
  cache_ttl : Int
  casual_inject_probability : ℚ
deriving DecidableEq

/-- Embeds `InjectOptimizer.should_inject`
(src/handlers/inject/inject_optimizer.py, lines 56-147), with `now` the
current wall clock and `rand` the `random.random()` draw of rule 4.  The
skip-reason strings are abbreviated; their content is not observable beyond
presence.  Rule order as in the source: (1) technical/command intents deny;
(2) no current activity and a non-query intent deny; (3) a prior injection
for this user within the TTL with the same activity and the same intent
denies, except for the `query_future` intent; (4) casual chat denies with
probability `casual_inject_probability`; (5) confidence below 0.4 denies;
otherwise allow. -/
def should_inject (opt : InjectOptimizer) (user_id : String) (intent : UserIntent)
    (current_activity : Option String) (confidence : ℚ) (now : Int) (rand : ℚ) :
    Bool × Option String :=
  if intent == .tech_question || intent == .command_execution then
    (false, some "intent-skip")
  else if current_activity.isNone &&
      ! (intent == .query_current || intent == .query_future) then
    (false, some "no-activity")
  else
    let dup :=
      match dict_lookup opt.inject_history user_id with
      | some h =>
          if intent == UserIntent.query_future then false
          else
            decide (now - h.last_time < opt.cache_ttl) &&
              (match current_activity with
               | some a => h.last_activity == a
               | none => false) &&
              (h.last_intent == intent.value)
      | none => false
    if dup then (false, some "duplicate")
    else if intent == UserIntent.casual_chat &&
        decide (opt.casual_inject_probability < rand) then
      (false, some "casual-random")
    else if confidence < 2 / 5 then
      (false, some "low-confidence")
    else (true, none)

/-- Embeds `InjectOptimizer.record_injection`
(src/handlers/inject/inject_optimizer.py, lines 149-185): store or refresh
the user's record with the time, activity, content and intent value,
starting the count at 1 or bumping it. -/
def record_injection (opt : InjectOptimizer) (user_id activity content : String)
    (intent : Option UserIntent) (now : Int) : InjectOptimizer :=
  let iv := match intent with | some i => i.value | none => ""
  let cnt := match dict_lookup opt.inject_history user_id with
    | some h => h.count + 1
    | none => 1
  let rec0 : InjectRecord :=
    { last_time := now, last_activity := activity, last_content := content,
      last_intent := iv, count := cnt }
  { opt with inject_history := dict_insert opt.inject_history user_id rec0 }

/-- The `scheduled_goals` triples of
`ScheduleInjectEventHandler._get_current_schedule`
(src/handlers/handlers.py, lines 918-938): every active goal whose
`time_window` lookup is truthy (present and non-empty) becomes
`(goal, time_window, is_today)`, where `is_today` compares the creation
calendar day (`Int.fdiv created_at 86400`, the floor day index) with today. -/
def scheduled_entry (today_day : Int) (g : Goal) : Option (Goal × List Int × Bool) :=
  match goal_time_window g with
  | some tw =>
      if tw.isEmpty then none
      else some (g, tw, decide (Int.fdiv g.created_at 86400 = today_day))
  | none => none

/-- Embeds the `get_start_minutes` sort key (src/handlers/handlers.py,
lines 946-956): 0 for a window shorter than 2; the raw start when the end
value exceeds 24 (minutes encoding); otherwise the start times 60. -/
def get_start_minutes (item : Goal × List Int × Bool) : Int :=
  let tw := item.2.1
  if tw.length < 2 then 0
  else if tw.getD 1 0 > 24 then tw.getD 0 0
  else tw.getD 0 0 * 60

/-- Insert `x` after every element whose key is at most `key x`.  Folding
this over a list from the left is a stable ascending sort, the behaviour of
Python's `list.sort(key=...)`. -/
def insort_by (key : α → Int) (x : α) : List α → List α
  | [] => [x]
  | y :: ys => if key x < key y then x :: y :: ys else y :: insort_by key x ys

/-- Python's stable `list.sort(key=...)`. -/
def sort_by_key (key : α → Int) (xs : List α) : List α :=
  xs.foldl (fun acc x => insort_by key x acc) []

/-- Python `f"{n:02d}"` for the values reached here. -/
def pad2 (n : Int) : String :=
  let s := toString n
  if s.length < 2 then "0" ++ s else s

/-- The `f"{hour:02d}:{minute:02d}"` rendering of a start minute
(src/handlers/handlers.py, lines 1005-1007), with Python's floor `//` and
`%`. -/
def fmt_hhmm (m : Int) : String :=
  pad2 (Int.fdiv m 60) ++ ":" ++ pad2 (Int.emod m 60)

/-- Embeds the future-activity collection of
`ScheduleInjectEventHandler._get_current_schedule`
(src/handlers/handlers.py, lines 991-1014), fed with the sorted
`scheduled_goals` list: each entry whose recomputed start minute is strictly
ahead of `now` is appended as `(time-string, name)`.  The source's
`if is_today:` branch and its `else` branch perform the identical append
(lines 1009-1014), so the `is_today` flag does not influence the result.
This is the per-item start recomputation (lines 994-1001): default the end
to start + 60 when missing, and treat an end of at most 24 as hours. -/
def future_start_minutes (item : Goal × List Int × Bool) : Int :=
  let tw := item.2.1
  let start_val := if tw.length > 0 then tw.getD 0 0 else 0
  let end_val := if tw.length > 1 then tw.getD 1 0 else start_val + 60
  if end_val ≤ 24 then start_val * 60 else start_val

/-- One iteration of the future-activity loop (src/handlers/handlers.py,
lines 993-1014): append `(time-string, name)` when the start is ahead of
`now`; both the `is_today` and the other-day branch perform this same
append. -/
def collect_future_step (now : Int) (acc : List (String × String))
    (item : Goal × List Int × Bool) : List (String × String) :=
  if future_start_minutes item > now then
    acc ++ [(fmt_hhmm (future_start_minutes item), item.1.name)]
  else acc

/-- The whole future-activity loop over the sorted `scheduled_goals`. -/
def collect_future_activities (sorted_items : List (Goal × List Int × Bool))
    (now : Int) : List (String × String) :=
  sorted_items.foldl (collect_future_step now) []

/-- The future-activity list produced while resolving the current schedule:
filter the active goals to scheduled triples, sort them by
`get_start_minutes` (stable), and collect the future entries
(src/handlers/handlers.py, lines 918-1014; the active filter is
`get_active_goals`, lines 904-908 with goal_manager.py lines 457-471). -/
def future_activities (goals : List Goal) (today_day now : Int) :
    List (String × String) :=
  collect_future_activities
    (sort_by_key get_start_minutes
      ((goals.filter (fun g => g.status == GoalStatus.active)).filterMap
        (scheduled_entry today_day))) now

/-- The three injection modes of `ScheduleInjectEventHandler.execute`
(src/handlers/handlers.py, lines 714-818).  The `rule` constructor covers
the branch guarded by `inject_mode == "rule" and self.intent_classifier and
self.inject_optimizer`; a missing component falls into the traditional
branch. -/
inductive InjectMode
  | smart
  | rule
  | traditional
deriving DecidableEq

/-- The slice of the message boundary object `MaiMessages` that
`ScheduleInjectEventHandler.execute` reads and writes: the prompt buffer
(`None` or a string; the empty string is falsy for the guard on line 612),
the stream id, and the extracted user text and user id. -/
structure InjectMessage where
  llm_prompt : Option String
  stream_id : Option String
  user_message : String
  user_id : String
deriving DecidableEq

/-- The tuple returned by `_get_current_schedule`
(src/handlers/handlers.py, line 860): current activity, its description,
the future-activity list, and the activity type. -/
abbrev ScheduleTuple :=
  Option String × Option String × List (String × String) × Option String

/-- The environment of one `ScheduleInjectEventHandler.execute` call: the
configuration flags and, for every fallible or external step inside the
`try` block, an oracle giving that step's outcome (`Except.error` models the
step raising).  The content builders are abstracted as the strings they
produce: the claims about `execute` quantify over all of their outputs. -/
structure ExecEnv where
  enabled : Bool
  inject_schedule : Bool
  inject_mode : InjectMode
  auto_generate : Bool
  context_step : Except Unit (Bool × Option String)
  generation_step : Except Unit Bool
  schedule_step : Except Unit ScheduleTuple
  smart_skip : Bool
  smart_content : String
  rule_decision : Except Unit (Bool × Option String)
  rule_content : Except Unit (Option String)

/-- Embeds the traditional-mode inject content
(src/handlers/handlers.py, lines 809-816): the fixed template around the
current activity, its (truthy) description, and the first future entry. -/
def traditional_content (activity : String) (desc : Option String)
    (future : List (String × String)) : String :=
  let base := "【当前状态】\n这会儿正" ++ activity
  let base := match desc with
    | some d => if d = "" then base else base ++ "（" ++ d ++ "）"
    | none => base
  let base := base ++ "\n回复时可以自然提到当前在做什么，不要刻意强调。"
  let base := match future with
    | (t, a) :: _ => base ++ "\n等下" ++ t ++ "要" ++ a ++ "。"
    | [] => base
  base ++ "\n"

/-- The mode dispatch of `ScheduleInjectEventHandler.execute`
(src/handlers/handlers.py, lines 714-818), yielding the inject content (or
`none` when the mode decides not to inject): smart mode skips on a
technical/command message and otherwise uses the built smart prompt; rule
mode asks the optimizer (overridden to yes by a context-cache continuation)
and then the template engine; traditional mode always injects its fixed
template. -/
def choose_content (env : ExecEnv) (ctx_continue : Bool) (activity : String)
    (desc : Option String) (fut : List (String × String)) :
    Except Unit (Option String) :=
  match env.inject_mode with
  | .smart => if env.smart_skip then .ok none else .ok (some env.smart_content)
  | .rule =>
      match (if ctx_continue then Except.ok (true, none) else env.rule_decision) with
      | .error e => .error e
      | .ok dec => if dec.1 then env.rule_content else .ok none
  | .traditional => .ok (some (traditional_content activity desc fut))

/-- The prompt rewrite at the end of the `try` block
(src/handlers/handlers.py, lines 830-834): `if inject_content:` (an empty
string is falsy) prepend it, then a newline, then the original prompt. -/
def apply_inject (msg : InjectMessage) : Option String → InjectMessage
  | none => msg
  | some c =>
      if c = "" then msg
      else
        match msg.llm_prompt with
        | some orig => { msg with llm_prompt := some (c ++ "\n" ++ orig) }
        | none => msg

/-- The body of the `try` block of `ScheduleInjectEventHandler.execute`
(src/handlers/handlers.py, lines 615-836): resolve the chat id, run the
context-cache check, optionally the auto-generation step (whose success flag
only feeds logging), resolve the current schedule, pick the inject content
per mode, and rewrite the prompt when content is present.  An `Except.error`
models an exception escaping to the handler's `except` clause. -/
def execute_body (env : ExecEnv) (msg : InjectMessage) :
    Except Unit InjectMessage :=
  match msg.stream_id with
  | none => .ok msg
  | some _ =>
    match env.context_step with
    | .error e => .error e
    | .ok ctx =>
      match (if env.auto_generate then env.generation_step else .ok false) with
      | .error e => .error e
      | .ok _ =>
        match env.schedule_step with
        | .error e => .error e
        | .ok (current_activity, current_description, all_future, _atype) =>
          match current_activity with
          | none => .ok msg
          | some activity =>
            match choose_content env ctx.1 activity current_description
                all_future with
            | .error e => .error e
            | .ok content => .ok (apply_inject msg content)

/-- Embeds `ScheduleInjectEventHandler.execute`
(src/handlers/handlers.py, lines 593-840): the early guard (disabled
handler, disabled injection, absent message or falsy prompt) returns with
the message untouched, and the trailing `except Exception` clause turns any
exception from the body into "no injection, message untouched". -/
def execute (env : ExecEnv) (msg : InjectMessage) : InjectMessage :=
  if !env.enabled || !env.inject_schedule || msg.llm_prompt == none ||
      msg.llm_prompt == some "" then msg
  else
    match execute_body env msg with
    | .ok msg1 => msg1
    | .error _ => msg

/-- A minimal concrete goal for concrete-input theorems. -/
def sample_goal (status : GoalStatus) (created_at : Int) : Goal :=
  { goal_id := "g", name := "g", description := "d", goal_type := "habit",
    priority := .medium, creator_id := "u", chat_id := "global",
    status := status, created_at := created_at, deadline := none,
    interval_seconds := none, conditions := [], parameters := [],
    progress := 0, last_executed_at := none, execution_count := 0 }

/-- A concrete active schedule goal carrying a `time_window`. -/
def sched_goal (name : String) (created_at : Int) (tw : List Int) : Goal :=
  { (sample_goal GoalStatus.active created_at) with
    name := name
    parameters := [("time_window", tw)] }

/-- A concrete `create_goal` argument record with the given priority string. -/
def sample_data (priority : String) : GoalData :=
  { name := "n", description := "d", goal_type := "habit", creator_id := "u",
    chat_id := "global", priority := priority, deadline := none,
    interval_seconds := none, conditions := none, parameters := none }

/-- The spec's progress invariant (§3): every stored goal's progress lies in
`[0, 100]`. -/
abbrev progress_ok (gs : GoalMap) : Prop :=
  ∀ p ∈ gs, 0 ≤ p.2.progress ∧ p.2.progress ≤ 100

/-- A concrete store for concrete-input theorems: one pre-existing goal under
key 0, uuid counter at 5, the same map persisted. -/
def C1_store : Store :=
  { goals := [(0, sample_goal .active 0)]
    next_uuid := 5
    persisted := [(0, sample_goal .active 0)] }

/-- A concrete batch whose second element carries an invalid priority string,
so its creation raises and the whole batch rolls back. -/
def C1_batch : List GoalData := [sample_data "medium", sample_data "urgent"]

/-- A concrete execution environment whose schedule-resolution step raises,
exercising the handler's exception path. -/
def C8_env : ExecEnv :=
  { enabled := true
    inject_schedule := true
    inject_mode := .smart
    auto_generate := false
    context_step := .ok (false, none)
    generation_step := .ok false
    schedule_step := .error ()
    smart_skip := false
    smart_content := "x"
    rule_decision := .ok (true, none)
    rule_content := .ok none }

/-- A concrete incoming message with a non-empty prompt. -/
def C8_msg : InjectMessage :=
  { llm_prompt := some "p"
    stream_id := some "s"
    user_message := "m"
    user_id := "u" }

/-- C4, counterexample: the stored pair `[24, 24]` has both values at most 24,
yet the resolver returns it unchanged instead of `[24*60, 24*60]`, because the
source tests `start < 24` strictly (src/utils/time_utils.py, line 27). -/
theorem C4_counterexample :
    ((24 : Int) ≤ 24 ∧ (24 : Int) ≤ 24) ∧
      migrate_time_window [24, 24] = some [24, 24] ∧
      migrate_time_window [24, 24] ≠ some [24 * 60, 24 * 60] ∧
      parse_time_window [24, 24] = (some 24, some 24) := by decide

/-- C4, amended: for every stored pair whose first value is strictly below 24
and whose second value is at most 24, the resolver returns `[v0*60, v1*60]`;
every pair of length at least 2 whose first value is at least 24 or whose
second value exceeds 24 is returned unchanged; every input with fewer than
2 elements resolves to the absent pair. -/
theorem C4_time_window_resolver (tw : List Int) :
    (tw.length < 2 → parse_time_window tw = (none, none)) ∧
    (2 ≤ tw.length → tw.getD 0 0 < 24 → tw.getD 1 0 ≤ 24 →
      migrate_time_window tw = some [tw.getD 0 0 * 60, tw.getD 1 0 * 60] ∧
      parse_time_window tw = (some (tw.getD 0 0 * 60), some (tw.getD 1 0 * 60))) ∧
    (2 ≤ tw.length → (24 ≤ tw.getD 0 0 ∨ 24 < tw.getD 1 0) →
      migrate_time_window tw = some tw ∧
      parse_time_window tw = (some (tw.getD 0 0), some (tw.getD 1 0))) := by
  refine ⟨fun h => ?_, fun h h0 h1 => ?_, fun h h01 => ?_⟩
  · simp [parse_time_window, migrate_time_window, h]
  · have hlen : ¬ tw.length < 2 := by omega
    have hm : migrate_time_window tw = some [tw.getD 0 0 * 60, tw.getD 1 0 * 60] := by
      show (if tw.length < 2 then none
        else if tw.getD 0 0 < 24 ∧ tw.getD 1 0 ≤ 24 then
          some [tw.getD 0 0 * 60, tw.getD 1 0 * 60]
        else some tw) = _
      rw [if_neg hlen, if_pos ⟨h0, h1⟩]
    refine ⟨hm, ?_⟩
    simp [parse_time_window, hm]
  · have hlen : ¬ tw.length < 2 := by omega
    have hcond : ¬ (tw.getD 0 0 < 24 ∧ tw.getD 1 0 ≤ 24) := by omega
    have hm : migrate_time_window tw = some tw := by
      show (if tw.length < 2 then none
        else if tw.getD 0 0 < 24 ∧ tw.getD 1 0 ≤ 24 then
          some [tw.getD 0 0 * 60, tw.getD 1 0 * 60]
        else some tw) = _
      rw [if_neg hlen, if_neg hcond]
    refine ⟨hm, ?_⟩
    obtain ⟨a, b, rest, rfl⟩ : ∃ a b rest, tw = a :: b :: rest := by
      match tw, h with
      | a :: b :: rest, _ => exact ⟨a, b, rest, rfl⟩
    simp [parse_time_window, hm, List.getD]

/-- C4, witness for the amended theorem at concrete inputs. -/
theorem C4_time_window_resolver_witness :
    parse_time_window [9] = (none, none) ∧
    parse_time_window [9, 12] = (some 540, some 720) ∧
    parse_time_window [540, 720] = (some 540, some 720) :=
  ⟨(C4_time_window_resolver [9]).1 (by decide),
    ((C4_time_window_resolver [9, 12]).2.1 (by decide) (by decide) (by decide)).2,
    ((C4_time_window_resolver [540, 720]).2.2 (by decide) (Or.inr (by decide))).2⟩

/-- C5: for a canonical window whose end exceeds 1440 the current-activity
test holds exactly when `start ≤ now < 1440` or `0 ≤ now < end − 1440`; for
the window `[1380, 1500]`, minutes 30 and 1410 are in-window and minute 700
is not. -/
theorem C5_overnight_window (s e now : Int) :
    (1440 < e →
      (is_in_window s e now = true ↔
        (s ≤ now ∧ now < 1440) ∨ (0 ≤ now ∧ now < e - 1440))) ∧
    is_in_window 1380 1500 30 = true ∧
    is_in_window 1380 1500 1410 = true ∧
    is_in_window 1380 1500 700 = false := by
  refine ⟨fun h => ?_, by decide, by decide, by decide⟩
  simp [is_in_window, h]

/-- C5, witness: the overnight characterization applied to the window
`[1380, 1500]` at minute 30. -/
theorem C5_overnight_window_witness :
    is_in_window 1380 1500 30 = true ↔
      (((1380 : Int) ≤ 30 ∧ (30 : Int) < 1440) ∨
        ((0 : Int) ≤ 30 ∧ (30 : Int) < 1500 - 1440)) :=
  (C5_overnight_window 1380 1500 30).1 (by decide)

theorem filter_ne_map_replace [BEq κ] [LawfulBEq κ] (gs : List (κ × α)) (k : κ) (v : α) :
    (gs.map (fun p => if p.1 == k then (k, v) else p)).filter (fun p => ! (p.1 == k))
      = gs.filter (fun p => ! (p.1 == k)) := by
  induction gs with
  | nil => rfl
  | cons p ps ih =>
      by_cases hp : p.1 == k <;> simp [hp, ih]

theorem dict_delete_dict_insert [BEq κ] [LawfulBEq κ] (gs : List (κ × α)) (k : κ) (v : α) :
    dict_delete (dict_insert gs k v) k = dict_delete gs k := by
  unfold dict_insert
  by_cases h : gs.any (fun p => p.1 == k)
  · rw [if_pos h]
    exact filter_ne_map_replace gs k v
  · rw [if_neg h]
    simp [dict_delete, List.filter_append]

theorem mem_dict_delete [BEq κ] [LawfulBEq κ] (gs : List (κ × α)) (k : κ) (p : κ × α) :
    p ∈ dict_delete gs k ↔ p ∈ gs ∧ ¬ p.1 = k := by
  simp [dict_delete, List.mem_filter]

theorem dict_delete_eq_self [BEq κ] [LawfulBEq κ] (gs : List (κ × α)) (k : κ)
    (h : ∀ p ∈ gs, ¬ p.1 = k) : dict_delete gs k = gs := by
  unfold dict_delete
  refine List.filter_eq_self.mpr ?_
  intro p hp
  simpa using h p hp

theorem dict_delete_comm [BEq κ] [LawfulBEq κ] (gs : List (κ × α)) (i k : κ) :
    dict_delete (dict_delete gs i) k = dict_delete (dict_delete gs k) i := by
  simp only [dict_delete, List.filter_filter]
  congr 1
  funext p
  rw [Bool.and_comm]

theorem foldl_dict_delete_comm [BEq κ] [LawfulBEq κ] (ids : List κ)
    (gs : List (κ × α)) (k : κ) :
    dict_delete (ids.foldl dict_delete gs) k
      = ids.foldl dict_delete (dict_delete gs k) := by
  induction ids generalizing gs with
  | nil => rfl
  | cons i is ih =>
      simp only [List.foldl_cons]
      rw [ih, dict_delete_comm]

theorem mem_foldl_dict_delete [BEq κ] [LawfulBEq κ] (ids : List κ)
    (gs : List (κ × α)) (p : κ × α) :
    p ∈ ids.foldl dict_delete gs ↔ p ∈ gs ∧ p.1 ∉ ids := by
  induction ids generalizing gs with
  | nil => simp
  | cons i is ih =>
      simp only [List.foldl_cons, ih, mem_dict_delete, List.mem_cons]
      tauto

theorem mem_dict_insert [BEq κ] [LawfulBEq κ] (gs : List (κ × α)) (k : κ) (v : α)
    (p : κ × α) (hp : p ∈ dict_insert gs k v) : p ∈ gs ∨ p = (k, v) := by
  unfold dict_insert at hp
  by_cases h : gs.any (fun q => q.1 == k)
  · rw [if_pos h] at hp
    obtain ⟨q, hq, hfq⟩ := List.mem_map.mp hp
    by_cases hqk : q.1 == k
    · right; rw [if_pos hqk] at hfq; exact hfq.symm
    · left; rw [if_neg hqk] at hfq; exact hfq ▸ hq
  · rw [if_neg h] at hp
    rcases List.mem_append.mp hp with h1 | h1
    · exact Or.inl h1
    · right; simpa using h1

theorem dict_lookup_insert [BEq κ] [LawfulBEq κ] (gs : List (κ × α)) (k : κ) (v : α) :
    dict_lookup (dict_insert gs k v) k = some v := by
  induction gs with
  | nil => simp [dict_insert, dict_lookup]
  | cons p ps ih =>
      by_cases hp : p.1 == k
      · simp [dict_insert, dict_lookup, List.any_cons, hp]
      · by_cases ha : ps.any (fun q => q.1 == k)
        · simp only [dict_insert, List.any_cons, hp, ha, Bool.false_or, if_true,
            if_pos] at ih ⊢
          simpa [dict_lookup, hp] using ih
        · simp only [dict_insert, List.any_cons, hp, ha, Bool.false_or,
            if_false, if_neg] at ih ⊢
          simpa [dict_lookup, hp] using ih

theorem nodup_key_eq {κ α : Type} (gs : List (κ × α))
    (h : (gs.map Prod.fst).Nodup) {p q : κ × α}
    (hp : p ∈ gs) (hq : q ∈ gs) (hk : p.1 = q.1) : p = q := by
  induction gs with
  | nil => cases hp
  | cons r rs ih =>
      simp only [List.map_cons, List.nodup_cons] at h
      rcases List.mem_cons.mp hp with hp1 | hp1 <;>
        rcases List.mem_cons.mp hq with hq1 | hq1
      · rw [hp1, hq1]
      · exfalso
        subst hp1
        apply h.1
        rw [hk]
        exact List.mem_map.mpr ⟨q, hq1, rfl⟩
      · exfalso
        subst hq1
        apply h.1
        rw [← hk]
        exact List.mem_map.mpr ⟨p, hp1, rfl⟩
      · exact ih h.2 hp1 hq1

theorem batch_go_error_state (now : Int) (rest : List GoalData) :
    ∀ (st : Store) (ids : List Nat) (created : List Goal),
      (∀ i, i < rest.length → ∀ p ∈ st.goals, p.1 ≠ st.next_uuid + i) →
      ∀ stF idsF e, batch_go now st ids created rest = (stF, idsF, .error e) →
        idsF.foldl dict_delete stF.goals = ids.foldl dict_delete st.goals ∧
          stF.persisted = st.persisted := by
  induction rest with
  | nil =>
      intro st ids created _ stF idsF e h
      simp [batch_go] at h
  | cons d ds ih =>
      intro st ids created hf stF idsF e h
      cases hp : GoalPriority.parse d.priority with
      | none =>
          simp only [batch_go, create_goal, hp] at h
          simp only [Prod.mk.injEq] at h
          obtain ⟨h1, h2, -⟩ := h
          subst h1
          subst h2
          exact ⟨rfl, rfl⟩
      | some prio =>
          simp only [batch_go, create_goal, hp] at h
          have hih := ih _ (ids ++ [st.next_uuid]) (created ++
            [Goal.make (toString st.next_uuid) d.name d.description d.goal_type
              prio d.creator_id d.chat_id .active none d.deadline
              d.interval_seconds d.conditions d.parameters 0 none 0 now])
            ?_ stF idsF e h
          · obtain ⟨h1, h2⟩ := hih
            refine ⟨?_, h2⟩
            rw [h1, List.foldl_append]
            simp only [List.foldl_cons, List.foldl_nil]
            rw [foldl_dict_delete_comm, dict_delete_dict_insert,
              dict_delete_eq_self]
            intro p hpmem
            have := hf 0 (by simp) p hpmem
            simpa using this
          · intro i hi p hpmem
            rcases mem_dict_insert _ _ _ p hpmem with hold | hnew
            · have := hf (i + 1) (by simpa using hi) p hold
              simp only [Store.next_uuid] at this ⊢
              omega
            · subst hnew
              simp only [Store.next_uuid]
              omega

/-- C1: if `create_goals_batch` raises because creating some element of the
batch fails, then after the re-raised error the store's in-memory goal map
equals its state before the call (every goal inserted earlier in the batch
has been rolled back and no other goal is affected) and the persisted file
content is unchanged (no partial batch is saved).  The hypothesis states
that the uuid draws used by the batch are fresh for the store, the modelled
guarantee of `uuid.uuid4()`. -/
theorem C1_batch_rollback (st : Store) (goals_data : List GoalData) (now : Int)
    (hfresh : ∀ i, i < goals_data.length → ∀ p ∈ st.goals, p.1 ≠ st.next_uuid + i)
    (e : Unit)
    (herr : (create_goals_batch st goals_data now).2 = .error e) :
    (create_goals_batch st goals_data now).1.goals = st.goals ∧
      (create_goals_batch st goals_data now).1.persisted = st.persisted := by
  unfold create_goals_batch at herr ⊢
  cases hb : batch_go now st [] [] goals_data with
  | mk stF rest =>
      obtain ⟨idsF, res⟩ := rest
      rw [hb] at herr
      cases res with
      | ok created => exact Except.noConfusion herr
      | error e0 =>
          have hmain := batch_go_error_state now goals_data st [] []
            hfresh stF idsF e0 hb
          exact ⟨hmain.1, hmain.2⟩

/-- C1, witness: a two-element batch whose second element has an invalid
priority fails, and the store (one pre-existing goal, uuid counter 5) is
exactly as before. -/
theorem C1_batch_rollback_witness :
    (create_goals_batch C1_store C1_batch 0).1.goals = C1_store.goals ∧
      (create_goals_batch C1_store C1_batch 0).1.persisted
        = C1_store.persisted :=
  C1_batch_rollback C1_store C1_batch 0 (by decide) () (by rfl)

theorem cleanup_membership (gs : GoalMap) (pred : Nat × Goal → Bool)
    (hkeys : (gs.map Prod.fst).Nodup) (p : Nat × Goal) :
    p ∈ ((gs.filter pred).map Prod.fst).foldl dict_delete gs ↔
      p ∈ gs ∧ ¬ pred p = true := by
  rw [mem_foldl_dict_delete]
  constructor
  · rintro ⟨hp, hnot⟩
    refine ⟨hp, fun hpred => hnot ?_⟩
    exact List.mem_map.mpr ⟨p, List.mem_filter.mpr ⟨hp, hpred⟩, rfl⟩
  · rintro ⟨hp, hnp⟩
    refine ⟨hp, fun hin => ?_⟩
    obtain ⟨q, hq, hqk⟩ := List.mem_map.mp hin
    have hq1 := List.mem_filter.mp hq
    have hqp : q = p := nodup_key_eq gs hkeys hq1.1 hp hqk
    exact hnp (hqp ▸ hq1.2)

/-- C2: `cleanup_old_goals` removes exactly the goals whose status is
completed or cancelled and whose creation time is before `now - days`, and
returns the number removed; active, paused and failed goals survive
regardless of age.  Concretely at `now = 0`: a completed goal created 31
days ago is removed by a 30-day cleanup, a completed goal created 29 days
ago is retained, and an active goal created 100 days ago is retained. -/
theorem C2_cleanup_old_goals (st : Store) (now days : Int)
    (hkeys : (st.goals.map Prod.fst).Nodup) :
    (∀ p, p ∈ (cleanup_old_goals st now days).1.goals ↔
        p ∈ st.goals ∧
          ¬ ((p.2.status = .completed ∨ p.2.status = .cancelled) ∧
            p.2.created_at < now - days * 86400)) ∧
    (∀ p ∈ st.goals,
        (p.2.status = .active ∨ p.2.status = .paused ∨ p.2.status = .failed) →
          p ∈ (cleanup_old_goals st now days).1.goals) ∧
    (cleanup_old_goals st now days).2
        = st.goals.countP (fun p => cleanup_eligible now days p.2) ∧
    (cleanup_old_goals ⟨[(0, sample_goal .completed (-31 * 86400))], 1, []⟩
        0 30).1.goals = [] ∧
    (cleanup_old_goals ⟨[(1, sample_goal .completed (-29 * 86400))], 2, []⟩
        0 30).1.goals = [(1, sample_goal .completed (-29 * 86400))] ∧
    (cleanup_old_goals ⟨[(2, sample_goal .active (-100 * 86400))], 3, []⟩
        0 30).1.goals = [(2, sample_goal .active (-100 * 86400))] := by
  have hbp : ∀ p : Nat × Goal, cleanup_eligible now days p.2 = true ↔
      ((p.2.status = .completed ∨ p.2.status = .cancelled) ∧
        p.2.created_at < now - days * 86400) := by
    intro p
    simp [cleanup_eligible]
  have hmem : ∀ p, p ∈ (cleanup_old_goals st now days).1.goals ↔
      p ∈ st.goals ∧ ¬ (cleanup_eligible now days p.2) = true :=
    fun p => cleanup_membership st.goals _ hkeys p
  refine ⟨?_, ?_, ?_, by decide, by decide, by decide⟩
  · intro p
    rw [hmem p, hbp p]
  · intro p hp hstat
    refine (hmem p).mpr ⟨hp, fun hb => ?_⟩
    rw [hbp p] at hb
    rcases hstat with h | h | h <;> rcases hb.1 with h2 | h2 <;>
      rw [h] at h2 <;> cases h2
  · show ((st.goals.filter fun p => cleanup_eligible now days p.2).map
      Prod.fst).length = _
    rw [List.length_map]
    exact (List.countP_eq_length_filter _ _).symm

/-- C2, witness: the general count equation applied at a concrete one-goal
store. -/
theorem C2_cleanup_old_goals_witness :
    (cleanup_old_goals ⟨[(0, sample_goal .completed (-31 * 86400))], 1, []⟩
        0 30).2
      = ([(0, sample_goal .completed (-31 * 86400))] : GoalMap).countP
          (fun p => cleanup_eligible 0 30 p.2) :=
  (C2_cleanup_old_goals ⟨[(0, sample_goal .completed (-31 * 86400))], 1, []⟩
    0 30 (by decide)).2.2.1

/-- C3 (spec-modelled): `cleanup_expired_schedules` removes exactly the
ACTIVE goals carrying a time window that were created before today's
midnight, returns the number removed, and the background maintenance step
(`_cleanup_old_goals`) invokes it on the goal manager before the days-based
cleanup. -/
theorem C3_cleanup_expired_schedules (st : Store) (today_start now days : Int)
    (hkeys : (st.goals.map Prod.fst).Nodup) :
    (∀ p, p ∈ (cleanup_expired_schedules st today_start).1.goals ↔
        p ∈ st.goals ∧
          ¬ (p.2.status = .active ∧ (goal_time_window p.2).isSome = true ∧
            p.2.created_at < today_start)) ∧
    (cleanup_expired_schedules st today_start).2
        = st.goals.countP (fun p => expired_schedule today_start p.2) ∧
    (maintenance_cleanup st today_start now days).2.1
        = (cleanup_expired_schedules st today_start).2 ∧
    (maintenance_cleanup st today_start now days).1
        = (cleanup_old_goals (cleanup_expired_schedules st today_start).1
            now days).1 := by
  have hbp : ∀ p : Nat × Goal, expired_schedule today_start p.2 = true ↔
      (p.2.status = .active ∧ (goal_time_window p.2).isSome = true ∧
        p.2.created_at < today_start) := by
    intro p
    simp [expired_schedule, and_assoc]
  have hmem : ∀ p, p ∈ (cleanup_expired_schedules st today_start).1.goals ↔
      p ∈ st.goals ∧ ¬ (expired_schedule today_start p.2) = true :=
    fun p => cleanup_membership st.goals _ hkeys p
  refine ⟨?_, ?_, rfl, rfl⟩
  · intro p
    rw [hmem p, hbp p]
  · show ((st.goals.filter fun p => expired_schedule today_start p.2).map
      Prod.fst).length = _
    rw [List.length_map]
    exact (List.countP_eq_length_filter _ _).symm

/-- C3, witness: the count equation at a concrete store holding one expired
ACTIVE schedule goal (created on day 0, today starting at day 1's
midnight). -/
theorem C3_cleanup_expired_schedules_witness :
    (cleanup_expired_schedules ⟨[(0, sched_goal "A" 0 [540, 600])], 1, []⟩
        86400).2
      = ([(0, sched_goal "A" 0 [540, 600])] : GoalMap).countP
          (fun p => expired_schedule 86400 p.2) :=
  (C3_cleanup_expired_schedules ⟨[(0, sched_goal "A" 0 [540, 600])], 1, []⟩
    86400 0 30 (by decide)).2.1

/-- C10: `Goal.from_dict (Goal.to_dict g)` reproduces `g` in every
attribute, for every goal and independently of the deserialization-time
clock: serialization followed by deserialization is the identity. -/
theorem C10_to_dict_from_dict (g : Goal) (now : Int) :
    Goal.from_dict (Goal.to_dict g) now = some g := by
  cases g with
  | mk gid nm ds gt prio cr ch status created ddl iv conds params prog lex cnt =>
      cases prio <;> cases status <;>
        simp [Goal.from_dict, Goal.to_dict, Goal.make, GoalPriority.parse,
          GoalStatus.parse, GoalPriority.value, GoalStatus.value]

/-- C9, counterexample: starting from a store whose only goal has progress 0
(all progresses in [0,100]), `update_goal` with a progress field-change of
150 succeeds and stores progress 150: the generic field update of
`update_goal` does not clamp (only `update_goal_progress` does), so the
invariant is not preserved by every update. -/
theorem C9_counterexample :
    progress_ok [(0, sample_goal .active 0)] ∧
      (update_goal ⟨[(0, sample_goal .active 0)], 1, []⟩ 0
        [.set_progress 150]).2 = true ∧
      ¬ progress_ok (update_goal ⟨[(0, sample_goal .active 0)], 1, []⟩ 0
        [.set_progress 150]).1.goals := by
  refine ⟨by decide, by decide, by decide⟩

theorem apply_changes_progress (changes : List FieldChange) :
    ∀ (g : Goal), 0 ≤ g.progress ∧ g.progress ≤ 100 →
      (∀ c ∈ changes, ∀ q, c = FieldChange.set_progress q → 0 ≤ q ∧ q ≤ 100) →
      0 ≤ (changes.foldl apply_change g).progress ∧
        (changes.foldl apply_change g).progress ≤ 100 := by
  induction changes with
  | nil => intro g hg _; exact hg
  | cons c cs ih =>
      intro g hg hc
      refine ih (apply_change g c) ?_
        (fun c2 h2 => hc c2 (List.mem_cons_of_mem _ h2))
      cases c with
      | set_progress q => exact hc _ (List.mem_cons_self _ _) _ rfl
      | set_status s => simpa [apply_change] using hg
      | set_name n => simpa [apply_change] using hg
      | set_description d => simpa [apply_change] using hg
      | set_priority p => simpa [apply_change] using hg
      | set_deadline d => simpa [apply_change] using hg
      | set_interval_seconds i => simpa [apply_change] using hg
      | set_last_executed_at t => simpa [apply_change] using hg
      | set_execution_count n => simpa [apply_change] using hg

theorem update_goal_preserves (st : Store) (id : Nat)
    (changes : List FieldChange) (hinv : progress_ok st.goals)
    (hc : ∀ c ∈ changes, ∀ q, c = FieldChange.set_progress q →
      0 ≤ q ∧ q ≤ 100) :
    progress_ok (update_goal st id changes).1.goals := by
  unfold update_goal
  by_cases h : st.goals.any (fun p => p.1 == id)
  · rw [if_pos h]
    intro p hp
    obtain ⟨q, hq, hfq⟩ := List.mem_map.mp hp
    by_cases hqid : q.1 == id
    · rw [if_pos hqid] at hfq
      rw [← hfq]
      exact apply_changes_progress changes q.2 (hinv q hq) hc
    · rw [if_neg hqid] at hfq
      exact hfq ▸ hinv q hq
  · rw [if_neg h]
    exact hinv

theorem batch_go_preserves (now : Int) (rest : List GoalData) :
    ∀ (st : Store) (ids : List Nat) (created : List Goal),
      progress_ok st.goals →
      ∀ stF idsF r, batch_go now st ids created rest = (stF, idsF, r) →
        progress_ok stF.goals := by
  induction rest with
  | nil =>
      intro st ids created hinv stF idsF r h
      simp only [batch_go, Prod.mk.injEq] at h
      exact h.1 ▸ hinv
  | cons d ds ih =>
      intro st ids created hinv stF idsF r h
      cases hp : GoalPriority.parse d.priority with
      | none =>
          simp only [batch_go, create_goal, hp, Prod.mk.injEq] at h
          exact h.1 ▸ hinv
      | some prio =>
          simp only [batch_go, create_goal, hp] at h
          refine ih _ _ _ ?_ stF idsF r h
          intro p hpmem
          rcases mem_dict_insert _ _ _ p hpmem with hold | hnew
          · exact hinv p hold
          · rw [hnew]
            simp [Goal.make]

/-- C9 (amended): starting from a store whose goals all have progress in
[0,100], every store operation preserves the invariant, with one proviso the
code forces: the raw `update_goal` preserves it only when every progress
field-change it is given already lies in [0,100], because it applies field
changes without clamping.  `create_goal`, `create_goals_batch`,
`update_goal_progress` (which clamps), `complete_goal` (progress 100) and
`delete_goal` preserve it unconditionally. -/
theorem C9_progress_invariant (st : Store) (hinv : progress_ok st.goals) :
    (∀ d now st1 k g, create_goal st d now = .ok (st1, k, g) →
        progress_ok st1.goals) ∧
    (∀ batch now, progress_ok (create_goals_batch st batch now).1.goals) ∧
    (∀ id changes,
        (∀ c ∈ changes, ∀ q, c = FieldChange.set_progress q →
          0 ≤ q ∧ q ≤ 100) →
        progress_ok (update_goal st id changes).1.goals) ∧
    (∀ id q, progress_ok (update_goal_progress st id q).1.goals) ∧
    (∀ id, progress_ok (complete_goal st id).1.goals) ∧
    (∀ id, progress_ok (delete_goal st id).1.goals) := by
  refine ⟨?_, ?_, ?_, ?_, ?_, ?_⟩
  · intro d now st1 k g hok
    cases hp : GoalPriority.parse d.priority with
    | none => simp [create_goal, hp] at hok
    | some prio =>
        simp only [create_goal, hp, Except.ok.injEq, Prod.mk.injEq] at hok
        rw [← hok.1]
        intro p hpmem
        rcases mem_dict_insert _ _ _ p hpmem with hold | hnew
        · exact hinv p hold
        · rw [hnew]
          simp [Goal.make]
  · intro batch now
    unfold create_goals_batch
    cases hb : batch_go now st [] [] batch with
    | mk stF rest2 =>
        obtain ⟨idsF, res⟩ := rest2
        have hF : progress_ok stF.goals :=
          batch_go_preserves now batch st [] [] hinv stF idsF res hb
        cases res with
        | ok created => exact hF
        | error e =>
            intro p hp
            rw [mem_foldl_dict_delete] at hp
            exact hF p hp.1
  · intro id changes hc
    exact update_goal_preserves st id changes hinv hc
  · intro id q
    refine update_goal_preserves st id _ hinv ?_
    intro c hcm q2 hcq
    rcases List.mem_cons.mp hcm with rfl | hcm2
    · cases hcq
      omega
    · cases hcm2
  · intro id
    refine update_goal_preserves st id _ hinv ?_
    intro c hcm q2 hcq
    rcases List.mem_cons.mp hcm with rfl | hcm2
    · cases hcq
    · rcases List.mem_cons.mp hcm2 with rfl | hcm3
      · cases hcq
        omega
      · cases hcm3
  · intro id
    unfold delete_goal
    by_cases h : st.goals.any (fun p => p.1 == id)
    · rw [if_pos h]
      intro p hp
      exact hinv p ((mem_dict_delete _ _ _).mp hp).1
    · rw [if_neg h]
      exact hinv

/-- C9, witness: the clamping update applied at a concrete one-goal store
with an out-of-range requested progress. -/
theorem C9_progress_invariant_witness :
    progress_ok (update_goal_progress
      ⟨[(0, sample_goal .active 0)], 1, []⟩ 0 150).1.goals :=
  (C9_progress_invariant ⟨[(0, sample_goal .active 0)], 1, []⟩
    (by decide)).2.2.2.1 0 150

theorem record_injection_lookup (opt : InjectOptimizer)
    (user activity content : String) (intent : Option UserIntent) (now : Int) :
    dict_lookup (record_injection opt user activity content intent now).inject_history
        user
      = some { last_time := now, last_activity := activity,
               last_content := content,
               last_intent := (match intent with | some i => i.value | none => ""),
               count := (match dict_lookup opt.inject_history user with
                         | some h => h.count + 1
                         | none => 1) } := by
  unfold record_injection
  exact dict_lookup_insert _ _ _

/-- C6: after an injection for `user` with activity `activity` and intent
`intent` is recorded at `t0`, a `should_inject` call within the TTL with the
identical activity and intent is denied for every intent other than
`query_future`; for `query_future` the duplicate rule never applies (the
decision does not depend on the recorded history at all), and the call is
allowed whenever the confidence clears the 0.4 floor — in particular at the
call's default confidence 1. -/
theorem C6_cooldown_duplicate (opt : InjectOptimizer)
    (user activity content : String) (intent : UserIntent) (conf : ℚ)
    (t0 t1 : Int) (rand : ℚ) (h_ttl : t1 - t0 < opt.cache_ttl) :
    (intent ≠ .query_future →
      (should_inject (record_injection opt user activity content (some intent) t0)
        user intent (some activity) conf t1 rand).1 = false) ∧
    (∀ h1 h2 : List (String × InjectRecord),
      should_inject { opt with inject_history := h1 } user .query_future
          (some activity) conf t1 rand
        = should_inject { opt with inject_history := h2 } user .query_future
          (some activity) conf t1 rand) ∧
    (2 / 5 ≤ conf →
      (should_inject (record_injection opt user activity content
          (some .query_future) t0)
        user .query_future (some activity) conf t1 rand).1 = true) := by
  refine ⟨fun hne => ?_, fun h1 h2 => ?_, fun hconf => ?_⟩
  · have hlk := record_injection_lookup opt user activity content (some intent) t0
    cases intent with
    | tech_question => simp [should_inject]
    | command_execution => simp [should_inject]
    | query_future => exact absurd rfl hne
    | query_current =>
        simp only [should_inject, hlk]
        simp [record_injection, h_ttl]
    | casual_chat =>
        simp only [should_inject, hlk]
        simp [record_injection, h_ttl]
    | unknown =>
        simp only [should_inject, hlk]
        simp [record_injection, h_ttl]
  · unfold should_inject
    cases hl1 : dict_lookup h1 user <;> cases hl2 : dict_lookup h2 user <;>
      simp
  · have hlk := record_injection_lookup opt user activity content
      (some .query_future) t0
    simp only [should_inject, hlk]
    simp [not_lt.mpr hconf]

/-- C6, witness: with TTL 300, a second identical (user, activity, intent)
call 10 seconds after the recorded injection is denied for `query_current`
but allowed for `query_future` at confidence 1. -/
theorem C6_cooldown_duplicate_witness :
    (should_inject (record_injection ⟨[], 300, 1 / 2⟩ "u" "study" "c"
        (some .query_current) 0) "u" .query_current (some "study") 1 10 0).1
      = false ∧
    (should_inject (record_injection ⟨[], 300, 1 / 2⟩ "u" "study" "c"
        (some .query_future) 0) "u" .query_future (some "study") 1 10 0).1
      = true :=
  ⟨(C6_cooldown_duplicate ⟨[], 300, 1 / 2⟩ "u" "study" "c" .query_current 1
      0 10 0 (by decide)).1 (by decide),
    (C6_cooldown_duplicate ⟨[], 300, 1 / 2⟩ "u" "study" "c" .query_future 1
      0 10 0 (by decide)).2.2 (by norm_num)⟩

/-- C7, the ordering defect at a concrete input: with an other-day goal "A"
starting 09:00 and a today goal "B" starting 10:00 (both active, both ahead
of minute 0), the produced future-activity list places the other-day goal
first, because the source's `if is_today:` and `else` branches perform the
identical append (src/handlers/handlers.py lines 1009-1014) although its
comments and the spec say today's goals come before other days' leftovers. -/
theorem C7_future_order_bug :
    future_activities
        [sched_goal "A" 0 [540, 600], sched_goal "B" 86400 [600, 660]] 1 0
      = [("09:00", "A"), ("10:00", "B")] ∧
    future_activities
        [sched_goal "A" 0 [540, 600], sched_goal "B" 86400 [600, 660]] 1 0
      ≠ [("10:00", "B"), ("09:00", "A")] := by
  refine ⟨by decide, by decide⟩

theorem apply_inject_prompt (msg : InjectMessage) (content : Option String) :
    apply_inject msg content = msg ∨
      ∃ c p, msg.llm_prompt = some p ∧
        apply_inject msg content
          = { msg with llm_prompt := some (c ++ "\n" ++ p) } := by
  obtain ⟨prompt, stream, um, uid⟩ := msg
  cases content with
  | none => exact Or.inl rfl
  | some c =>
      by_cases hc : c = ""
      · exact Or.inl (by simp [apply_inject, hc])
      · cases prompt with
        | none => exact Or.inl (by simp [apply_inject, hc])
        | some orig => exact Or.inr ⟨c, orig, rfl, by simp [apply_inject, hc]⟩

theorem execute_body_prompt (env : ExecEnv) (msg : InjectMessage)
    (m1 : InjectMessage) (hb : execute_body env msg = .ok m1) :
    m1 = msg ∨ ∃ c p, msg.llm_prompt = some p ∧
      m1 = { msg with llm_prompt := some (c ++ "\n" ++ p) } := by
  unfold execute_body at hb
  cases hstream : msg.stream_id with
  | none =>
      rw [hstream] at hb
      injection hb with hh
      subst hh
      exact Or.inl rfl
  | some s =>
      rw [hstream] at hb
      cases hctx : env.context_step with
      | error e =>
          rw [hctx] at hb
          exact Except.noConfusion hb
      | ok ctx =>
          rw [hctx] at hb
          cases hgen : (if env.auto_generate = true then env.generation_step
              else Except.ok false) with
          | error e =>
              rw [hgen] at hb
              exact Except.noConfusion hb
          | ok gflag =>
              rw [hgen] at hb
              cases hsch : env.schedule_step with
              | error e =>
                  rw [hsch] at hb
                  exact Except.noConfusion hb
              | ok tup =>
                  rw [hsch] at hb
                  obtain ⟨cur, desc, fut, atype⟩ := tup
                  dsimp only at hb
                  cases cur with
                  | none =>
                      injection hb with hh
                      subst hh
                      exact Or.inl rfl
                  | some activity =>
                      dsimp only at hb
                      cases hcc : choose_content env ctx.1 activity desc fut with
                      | error e =>
                          rw [hcc] at hb
                          exact Except.noConfusion hb
                      | ok content =>
                          rw [hcc] at hb
                          injection hb with hh
                          subst hh
                          rw [← hstream]
                          exact apply_inject_prompt msg content

/-- C8: for every environment (including any pattern of internal step
failures) and every message, `execute` returns normally and either leaves
the message's prompt untouched or replaces it with the generated text, a
newline, and the original prompt; and whenever the body of the `try` block
raises, the message is untouched.  The embedding makes "never propagates an
exception" structural: `execute` is a total function whose `except Exception`
clause maps every body error to the unchanged message. -/
theorem C8_execute_prompt_safety (env : ExecEnv) (msg : InjectMessage) :
    (execute env msg = msg ∨
      ∃ c p, msg.llm_prompt = some p ∧
        execute env msg = { msg with llm_prompt := some (c ++ "\n" ++ p) }) ∧
    (∀ e, execute_body env msg = .error e → execute env msg = msg) := by
  constructor
  · unfold execute
    split
    · exact Or.inl rfl
    · cases hb : execute_body env msg with
      | ok m1 =>
          rcases execute_body_prompt env msg m1 hb with h | ⟨c, p, hp, hm⟩
          · exact Or.inl h
          · exact Or.inr ⟨c, p, hp, hm⟩
      | error e => exact Or.inl rfl
  · intro e he
    unfold execute
    split
    · rfl
    · rw [he]

/-- C8, witness: with a schedule-resolution step that raises, the handler
returns the message unchanged. -/
theorem C8_execute_prompt_safety_witness : execute C8_env C8_msg = C8_msg :=
  (C8_execute_prompt_safety C8_env C8_msg).2 () (by rfl)
